import Mathlib

/-!
Verification development for the dewy deployment daemon.

This file gives a shallow embedding of the release-resolution, caching,
deploy and server-lifecycle logic of the Go sources
(`repo/github_release.go`, `dewy.go`) and proves the specification's
claims about them.

Conventions of the embedding:
* Go errors are `Except String`; a Go runtime panic (nil-pointer
  dereference) is modelled as a distinguished error string.
* Byte slices are modelled as `String` (the code only ever compares them
  with strings or stores them opaquely).
* Go `int64` values (release ids, asset ids, unix timestamps) are
  modelled as `Int`.
* Remote HTTP interactions (the GitHub client calls) are modelled as
  response fields carried by the `GithubRelease` record: each field holds
  the response the remote would give during the run under consideration.
* Side effects on the cache store are modelled by explicit state passing,
  together with an event trace (`Ev`) recording downloads and store
  writes in the order they are performed.
-/

set_option autoImplicit false

namespace Dewy

/-- A parsed URL, as produced by Go's `url.Parse`: we keep exactly the two
projections the source uses, `u.Host` and `u.RequestURI()` (the latter
keeps the leading slash of the path). -/
structure URL where
  host : String
  requestURI : String

/-- The parse of the empty string: `url.Parse("")` succeeds in Go and
yields a URL with empty host whose `RequestURI()` method returns "/".
This is the value of the `downloadURL` field before any asset matched. -/
def URL.empty : URL := ⟨"", "/"⟩

/-- Embedding of Go `strings.Replace(s, "/", "-", -1)`: replacing every
occurrence of the one-character substring "/" is a character-wise map. -/
def replaceSlash (s : String) : String :=
  ⟨s.data.map fun c => if c = '/' then '-' else c⟩

/-- The cache-key derivation of `setCacheKey` (github_release.go:165):
`strings.Replace(fmt.Sprintf("%s--%d-%s", u.Host, g.updatedAt.Unix(), u.RequestURI()), "/", "-", -1)`. -/
def cacheKeyOf (host : String) (updatedAt : Int) (requestURI : String) : String :=
  replaceSlash (host ++ "--" ++ toString updatedAt ++ "-" ++ requestURI)

/-- Decimal digits of a natural number, most significant first.  Reference
semantics for core's fuel-based `Nat.toDigitsCore`; used to reason about
the `%d` formatting inside the cache key. -/
def natChars (n : Nat) : List Char :=
  if n < 10 then [Nat.digitChar n]
  else natChars (n / 10) ++ [Nat.digitChar (n % 10)]
decreasing_by exact Nat.div_lt_self (by omega) (by omega)

/-- Evaluate a most-significant-first decimal digit list back to a number. -/
def charsVal (l : List Char) : Nat :=
  l.foldl (fun a c => a * 10 + (c.toNat - 48)) 0

/-- A release asset, with the fields of `github.ReleaseAsset` the source
reads: `Name`, `ID`, `BrowserDownloadURL` (already parsed) and
`UpdatedAt` (as a unix timestamp). -/
structure Asset where
  name : String
  id : Int
  browserDownloadURL : URL
  updatedAt : Int

/-- A release, with the fields of `github.RepositoryRelease` the source
reads: `ID`, `TagName`, `HTMLURL`, `Draft` and `Assets`. -/
structure Release where
  id : Int
  tagName : String
  htmlURL : String
  draft : Bool
  assets : List Asset

/-- The remote asset endpoint's behaviour for one call of
`DownloadReleaseAsset` plus the (at most one) follow-up `http.Get` on the
redirect URL the endpoint may return (github_release.go:211-221). -/
inductive AssetResp where
  /-- `DownloadReleaseAsset` itself fails. -/
  | err (e : String)
  /-- a direct reader is returned (redirect URL empty). -/
  | direct (bytes : String)
  /-- a redirect URL is returned and `http.Get` on it fails. -/
  | redirectErr (url : String) (e : String)
  /-- a redirect URL is returned and `http.Get` on it yields the bytes. -/
  | redirectOk (url : String) (bytes : String)

/-- The artifact bytes an `AssetResp` delivers on the success paths. -/
def AssetResp.bytesOf : AssetResp → Option String
  | .direct b => some b
  | .redirectOk _ b => some b
  | _ => none

/-- Modelled from the spec: the `kvs.KVS` cache-store collaborator
(package `kvs` is not under src/).  Spec section 4.2: a persistent
key-to-bytes mapping with `Read(key) -> bytes | NotFound`,
`Write(key, bytes) -> ok`, `List() -> set of keys`.  We model it as an
association list whose `Write` replaces any previous binding of the key. -/
structure KVS where
  entries : List (String × String)

/-- Read a key, `none` when absent (Go returns an error the caller of
interest discards, leaving a nil byte slice). -/
def KVS.Read (s : KVS) (k : String) : Option String :=
  (s.entries.find? fun e => e.1 == k).map Prod.snd

/-- Write a key, replacing any previous binding. -/
def KVS.Write (s : KVS) (k v : String) : KVS :=
  ⟨(k, v) :: (s.entries.filter fun e => !(e.1 == k))⟩

/-- Enumerate the stored keys. -/
def KVS.List (s : KVS) : List String :=
  s.entries.map Prod.fst

/-- The `GithubRelease` struct (github_release.go:31-48), restricted to
the fields the verified logic uses, plus three fields modelling the
remote GitHub client's responses for the run under consideration
(`ListReleases`, `GetLatestRelease`, `DownloadReleaseAsset`). -/
structure GithubRelease where
  owner : String
  name : String
  artifact : String
  downloadURL : URL
  cacheKey : String
  cache : KVS
  releaseID : Int
  assetID : Int
  releaseURL : String
  releaseTag : String
  prerelease : Bool
  updatedAt : Int
  listReleases : Except String (List Release)
  latestRelease : Except String Release
  assetDownload : AssetResp

/-- `setCacheKey` (github_release.go:160-168).  The `url.Parse` error
path cannot arise here because `downloadURL` is already in parsed form. -/
def GithubRelease.setCacheKey (g : GithubRelease) : GithubRelease :=
  { g with cacheKey := cacheKeyOf g.downloadURL.host g.updatedAt g.downloadURL.requestURI }

/-- `latest` (github_release.go:137-158).  In pre-release mode the Go
loop is `for _, v := range rr { if *v.Draft { continue }; return r, nil }`:
on the first non-draft entry it returns the variable `r`, which is still
the nil-initialized `*github.RepositoryRelease` declared above the loop —
not `v`.  We model that nil pointer as `none`.  When every entry on the
first page is a draft the loop completes and control falls through to the
plain `GetLatestRelease` call, as it also does when pre-release mode is
off. -/
def GithubRelease.latest (g : GithubRelease) : Except String (Option Release) :=
  if g.prerelease then
    match g.listReleases with
    | .error e => .error e
    | .ok rr =>
      if rr.any fun v => !v.draft then .ok none
      else g.latestRelease.map some
  else
    g.latestRelease.map some

/-- The Go runtime error produced by dereferencing a nil release pointer,
as `Fetch` does via `*release.ID` when `latest` returns nil. -/
def nilPointerPanic : String :=
  "panic: runtime error: invalid memory address or nil pointer dereference"

/-- `Fetch` (github_release.go:110-135): resolve the latest release,
record its id and page URL, scan its assets for the first one whose name
equals the configured artifact (recording download URL, tag, asset id and
timestamp when found — and changing nothing when not), then derive the
cache key.  A nil release from `latest` is dereferenced, which panics. -/
def GithubRelease.Fetch (g : GithubRelease) : Except String GithubRelease :=
  match g.latest with
  | .error e => .error e
  | .ok none => .error nilPointerPanic
  | .ok (some release) =>
    let g1 := { g with releaseID := release.id, releaseURL := release.htmlURL }
    let g2 :=
      match release.assets.find? fun v => v.name == g.artifact with
      | some v =>
        { g1 with downloadURL := v.browserDownloadURL,
                  releaseTag := release.tagName,
                  assetID := v.id,
                  updatedAt := v.updatedAt }
      | none => g1
    .ok g2.setCacheKey

/-- An observable side effect of the resolver: one asset download, or one
write to the cache store under the given key. -/
inductive Ev where
  | download
  | write (key : String)

/-- `download` (github_release.go:209-236): one `DownloadReleaseAsset`
call, following at most the single redirect URL it may return, then one
store write of the downloaded bytes under the cache key.  The result
pairs the (possibly failed) outcome with the event trace. -/
def GithubRelease.download (g : GithubRelease) : Except String GithubRelease × List Ev :=
  match g.assetDownload with
  | .err e => (.error e, [.download])
  | .direct b =>
    (.ok { g with cache := g.cache.Write g.cacheKey b }, [.download, .write g.cacheKey])
  | .redirectErr _ e => (.error e, [.download])
  | .redirectOk _ b =>
    (.ok { g with cache := g.cache.Write g.cacheKey b }, [.download, .write g.cacheKey])

/-- Outcome of the key-scanning loop in `GetDeploySourceKey`
(github_release.go:181-192). -/
inductive ScanOutcome where
  /-- the loop returned the "No need to deploy" error. -/
  | noNeed
  /-- the loop completed; `found` records whether the key was cached. -/
  | scanned (found : Bool)

/-- The loop of `GetDeploySourceKey` over the store's key list: for each
key, first test `current == cacheKey && key == cacheKey` (return the
"nothing to deploy" condition), then `key == cacheKey` (mark found and
break). -/
def scanList (current ck : String) : List String → ScanOutcome
  | [] => .scanned false
  | key :: rest =>
    if current == ck && key == ck then .noNeed
    else if key == ck then .scanned true
    else scanList current ck rest

/-- `GetDeploySourceKey` (github_release.go:171-207): read the current
pointer (`current.txt`, absent reads as the empty string), scan the key
list, download only when the fresh key is not cached, then write the
fresh key as the new current pointer and return it.  The result carries
the final store state and the event trace. -/
def GithubRelease.GetDeploySourceKey (g : GithubRelease) :
    Except String String × GithubRelease × List Ev :=
  match scanList ((g.cache.Read "current.txt").getD "") g.cacheKey g.cache.List with
  | .noNeed => (.error "No need to deploy", g, [])
  | .scanned found =>
    match (if found then ((.ok g : Except String GithubRelease), ([] : List Ev))
           else g.download) with
    | (.error e, evs) => (.error e, g, evs)
    | (.ok g1, evs) =>
      let g2 := { g1 with cache := g1.cache.Write "current.txt" g1.cacheKey }
      (.ok g2.cacheKey, g2, evs ++ [.write "current.txt"])

/-- The deployment-side filesystem state: the Active-Version Link
(`current` symlink target, `none` when absent) and the populated
Deployment Slots (directory name paired with extracted contents). -/
structure FS where
  link : Option String
  slots : List (String × String)

/-- Modelled from the spec: the local collaborators of `deploy` that are
not under src/ — `kvs.ExtractArchive` (spec section 4.3: unsupported or
corrupt archives fail) and `os.MkdirAll` (slot creation can fail).
`extract` maps archive bytes to extracted contents or an error. -/
structure DeployEnv where
  mkdirOk : Bool
  extract : String → Except String String

/-- `preserve` (dewy.go:166-178): create the slot directory, extract the
archive into it, return the populated slot.  A missing cache entry makes
the extraction fail (the path passed to `ExtractArchive` does not exist). -/
def preserve (env : DeployEnv) (fs : FS) (dst : String) (archive : Option String) :
    Except String (String × FS) :=
  if env.mkdirOk then
    match archive with
    | none => .error "ArchiveExtractionError"
    | some bytes =>
      match env.extract bytes with
      | .error e => .error e
      | .ok contents => .ok (dst, { fs with slots := (dst, contents) :: fs.slots })
  else .error "SlotCreationError"

/-- `deploy` (dewy.go:146-164): locate the cache entry for the key,
`preserve` it into a fresh slot, and only on success remove the old
Active-Version Link and point it at the new slot.  On `preserve` failure
the filesystem state (in particular the link) is returned unchanged. -/
def deploy (env : DeployEnv) (cache : KVS) (fs : FS) (key dst : String) :
    Except String Unit × FS :=
  match preserve env fs dst (cache.Read key) with
  | .error e => (.error e, fs)
  | .ok (linkFrom, fs1) => (.ok (), { fs1 with link := some linkFrom })

/-- Commands the lifecycle manager issues to the outside world: run the
starter collaborator, or send SIGHUP to the current process. -/
inductive ServerCmd where
  | starterRun
  | sighup

/-- `startServer` (dewy.go:194-214): set the running flag and invoke the
starter collaborator (modelled from the spec as the opaque
`ServerCmd.starterRun` command; the starter package is not under src/). -/
def startServer (_running : Bool) : Bool × ServerCmd :=
  (true, .starterRun)

/-- `restartServer` (dewy.go:180-192): send SIGHUP to the current
process; the running flag is not changed. -/
def restartServer (running : Bool) : Bool × ServerCmd :=
  (running, .sighup)

/-- The server-mode tail of `Run` (dewy.go:134-140): after a successful
deploy, restart when already running, start otherwise. -/
def serverStep (running : Bool) : Bool × ServerCmd :=
  if running then restartServer running else startServer running

/-- Iterate `serverStep` over a number of successful deploy cycles,
collecting the issued commands in order. -/
def runCycles : Nat → Bool → Bool × List ServerCmd
  | 0, running => (running, [])
  | n + 1, running =>
    let (r1, cmd) := serverStep running
    let (r2, cmds) := runCycles n r1
    (r2, cmd :: cmds)

/-! Concrete fixtures used by witnesses and counterexamples. -/

/-- A resolver state whose fresh key is cached and already current. -/
def gC1 : GithubRelease :=
  { owner := "linyows", name := "dewy", artifact := "dewy.tar.gz"
    downloadURL := ⟨"github.com", "/x"⟩, cacheKey := "k1"
    cache := ⟨[("current.txt", "k1"), ("k1", "BYTES")]⟩
    releaseID := 0, assetID := 0, releaseURL := "", releaseTag := ""
    prerelease := false, updatedAt := 0
    listReleases := .ok [], latestRelease := .error "unused"
    assetDownload := .err "unused" }

/-- A resolver state whose fresh key is cached but not current. -/
def gC2 : GithubRelease :=
  { gC1 with cache := ⟨[("current.txt", "old"), ("k1", "BYTES")]⟩ }

/-- A resolver state whose fresh key is absent from an empty store and
whose asset endpoint serves bytes directly. -/
def gC3 : GithubRelease :=
  { gC1 with cache := ⟨[]⟩, assetDownload := .direct "BYTES" }

/-- A non-draft release carrying a matching asset. -/
def relC6 : Release :=
  { id := 42, tagName := "v1.0.0-rc1"
    htmlURL := "https://github.com/linyows/dewy/releases/tag/v1.0.0-rc1"
    draft := false
    assets := [⟨"dewy.tar.gz", 7, ⟨"github.com", "/d/v1.0.0-rc1/dewy.tar.gz"⟩, 1672531200⟩] }

/-- A resolver in pre-release mode whose first release page holds the
single non-draft release `relC6`. -/
def gC6 : GithubRelease :=
  { gC1 with prerelease := true, listReleases := .ok [relC6]
             latestRelease := .error "unused" }

/-- A non-draft release none of whose assets matches `dewy.tar.gz`. -/
def relC7 : Release :=
  { id := 7, tagName := "v1.2.3"
    htmlURL := "https://github.com/linyows/dewy/releases/tag/v1.2.3"
    draft := false
    assets := [⟨"other-artifact.zip", 9, ⟨"github.com", "/y"⟩, 100⟩] }

/-- A resolver whose latest release is `relC7`, with the download URL
still at its zero value. -/
def gC7 : GithubRelease :=
  { gC1 with downloadURL := URL.empty, latestRelease := .ok relC7 }

/-- A deploy environment whose slot creation fails. -/
def envFail : DeployEnv := ⟨false, fun _ => .ok "CONTENTS"⟩

/-- A deploy environment in which everything succeeds. -/
def envOk : DeployEnv := ⟨true, fun _ => .ok "CONTENTS"⟩

/-- A filesystem whose link points at a prior slot. -/
def fsPrior : FS := ⟨some "slot0", [("slot0", "OLD")]⟩

/-- The resolver state after `gC3` downloads and promotes its key. -/
def gC10done : GithubRelease :=
  { gC3 with cache := ⟨[("current.txt", "k1"), ("k1", "BYTES")]⟩ }

/-! Decimal formatting: core's fuel-based `Nat.toDigitsCore` agrees with
the structural `natChars`, and the representation is injective.  This
underpins the cache-key uniqueness-in-timestamp property. -/

theorem toDigitsCore_eq_natChars (fuel : Nat) :
    ∀ (n : Nat) (ds : List Char), n < fuel →
      Nat.toDigitsCore 10 fuel n ds = natChars n ++ ds := by
  induction fuel with
  | zero => intro n ds h; omega
  | succ f ih =>
    intro n ds h
    rw [Nat.toDigitsCore]
    by_cases h10 : n / 10 = 0
    · have hn : n < 10 := by omega
      rw [if_pos h10, natChars, if_pos hn, Nat.mod_eq_of_lt hn]
      rfl
    · have hn : ¬ n < 10 := fun hc => h10 (Nat.div_eq_of_lt hc)
      have hlt : n / 10 < f :=
        Nat.lt_of_lt_of_le (Nat.div_lt_self (by omega) (by omega)) (by omega)
      rw [if_neg h10, ih (n / 10) _ hlt]
      conv_rhs => rw [natChars]
      rw [if_neg hn, List.append_assoc]
      rfl

theorem repr_eq_natChars (n : Nat) : Nat.repr n = (natChars n).asString := by
  show (Nat.toDigits 10 n).asString = _
  rw [Nat.toDigits, toDigitsCore_eq_natChars (n + 1) n [] (Nat.lt_succ_self n),
    List.append_nil]

theorem digitChar_toNat : ∀ n, n < 10 → (Nat.digitChar n).toNat = 48 + n := by decide

theorem digitChar_range : ∀ n, n < 10 →
    48 ≤ (Nat.digitChar n).toNat ∧ (Nat.digitChar n).toNat < 58 := by decide

theorem charsVal_natChars (n : Nat) : charsVal (natChars n) = n := by
  induction n using Nat.strong_induction_on with
  | _ n ih =>
    rw [natChars]
    by_cases h : n < 10
    · rw [if_pos h]
      show 0 * 10 + ((Nat.digitChar n).toNat - 48) = n
      rw [digitChar_toNat n h]; omega
    · rw [if_neg h]
      have hlt : n / 10 < n := Nat.div_lt_self (by omega) (by omega)
      have hmod : n % 10 < 10 := Nat.mod_lt n (by omega)
      rw [charsVal, List.foldl_append]
      show (charsVal (natChars (n / 10))) * 10 + ((Nat.digitChar (n % 10)).toNat - 48) = n
      rw [ih (n / 10) hlt, digitChar_toNat _ hmod]
      omega

theorem natChars_all_digits (n : Nat) :
    ∀ c ∈ natChars n, 48 ≤ c.toNat ∧ c.toNat < 58 := by
  induction n using Nat.strong_induction_on with
  | _ n ih =>
    rw [natChars]
    by_cases h : n < 10
    · rw [if_pos h]
      intro c hc
      rw [List.mem_singleton] at hc
      subst hc
      exact digitChar_range n h
    · rw [if_neg h]
      intro c hc
      rcases List.mem_append.mp hc with h1 | h2
      · exact ih (n / 10) (Nat.div_lt_self (by omega) (by omega)) c h1
      · rw [List.mem_singleton] at h2
        subst h2
        exact digitChar_range _ (Nat.mod_lt n (by omega))

theorem natChars_ne_nil (n : Nat) : natChars n ≠ [] := by
  rw [natChars]
  by_cases h : n < 10
  · rw [if_pos h]; simp
  · rw [if_neg h]; simp

theorem natChars_inj {m n : Nat} (h : natChars m = natChars n) : m = n := by
  have hm := charsVal_natChars m
  rw [h, charsVal_natChars] at hm
  omega

theorem nat_repr_inj {m n : Nat} (h : Nat.repr m = Nat.repr n) : m = n := by
  rw [repr_eq_natChars, repr_eq_natChars] at h
  exact natChars_inj (congrArg String.data h)

theorem toString_int_ofNat (m : Nat) : toString (Int.ofNat m) = Nat.repr m := rfl

theorem toString_int_negSucc (m : Nat) :
    toString (Int.negSucc m) = "-" ++ Nat.repr (m + 1) := rfl

theorem data_append (a b : String) : (a ++ b).data = a.data ++ b.data := rfl

theorem asString_data (l : List Char) : (List.asString l).data = l := rfl

theorem dash_data : ("-" : String).data = ['-'] := rfl

theorem repr_data (n : Nat) : (Nat.repr n).data = natChars n := by
  rw [repr_eq_natChars, asString_data]

theorem toString_int_inj {a b : Int} (h : toString a = toString b) : a = b := by
  cases a with
  | ofNat m =>
    cases b with
    | ofNat n =>
      rw [toString_int_ofNat, toString_int_ofNat] at h
      exact congrArg Int.ofNat (nat_repr_inj h)
    | negSucc n =>
      exfalso
      rw [toString_int_ofNat, toString_int_negSucc] at h
      have hd := congrArg String.data h
      rw [data_append, repr_data, repr_data, dash_data] at hd
      have hmem : '-' ∈ natChars m := by
        rw [hd]; exact List.mem_cons_self _ _
      have hdig := natChars_all_digits m '-' hmem
      have h45 : ('-').toNat = 45 := rfl
      omega
  | negSucc m =>
    cases b with
    | ofNat n =>
      exfalso
      rw [toString_int_negSucc, toString_int_ofNat] at h
      have hd := congrArg String.data h
      rw [data_append, repr_data, repr_data, dash_data] at hd
      have hmem : '-' ∈ natChars n := by
        rw [← hd]; exact List.mem_cons_self _ _
      have hdig := natChars_all_digits n '-' hmem
      have h45 : ('-').toNat = 45 := rfl
      omega
    | negSucc n =>
      rw [toString_int_negSucc, toString_int_negSucc] at h
      have hd := congrArg String.data h
      rw [data_append, data_append, repr_data, repr_data, dash_data] at hd
      have hnc := natChars_inj (List.tail_eq_of_cons_eq hd)
      have : m = n := by omega
      rw [this]

theorem toString_int_no_slash (t : Int) : ∀ c ∈ (toString t).data, c ≠ '/' := by
  cases t with
  | ofNat m =>
    rw [toString_int_ofNat, repr_data]
    intro c hc he
    have := natChars_all_digits m c hc
    have h47 : ('/').toNat = 47 := rfl
    rw [he] at this
    omega
  | negSucc m =>
    rw [toString_int_negSucc]
    intro c hc he
    rw [data_append, dash_data, repr_data] at hc
    rcases List.mem_cons.mp hc with h1 | h2
    · rw [he] at h1; exact absurd h1 (by decide)
    · have := natChars_all_digits (m + 1) c h2
      have h47 : ('/').toNat = 47 := rfl
      rw [he] at this
      omega

theorem map_slash_toString_int (t : Int) :
    ((toString t).data.map fun c => if c = '/' then '-' else c) = (toString t).data := by
  have hc : ∀ c ∈ (toString t).data, (if c = '/' then '-' else c) = id c := by
    intro c hc
    have := toString_int_no_slash t c hc
    simp [this]
  rw [List.map_congr_left hc, List.map_id]

theorem cacheKeyOf_data (h : String) (t : Int) (p : String) :
    (cacheKeyOf h t p).data =
      (h.data.map fun c => if c = '/' then '-' else c) ++ ['-', '-'] ++
        (toString t).data ++ ['-'] ++
        (p.data.map fun c => if c = '/' then '-' else c) := by
  show ((h ++ "--" ++ toString t ++ "-" ++ p).data.map _) = _
  rw [data_append, data_append, data_append, data_append]
  rw [List.map_append, List.map_append, List.map_append, List.map_append]
  rw [map_slash_toString_int]
  rfl

theorem cacheKeyOf_ts_inj (h p : String) {t t2 : Int}
    (he : cacheKeyOf h t p = cacheKeyOf h t2 p) : t = t2 := by
  have hd := congrArg String.data he
  rw [cacheKeyOf_data, cacheKeyOf_data] at hd
  rw [List.append_assoc, List.append_assoc, List.append_assoc, List.append_assoc,
    List.append_assoc, List.append_assoc] at hd
  have h1 := List.append_cancel_left hd
  have h2 := List.append_cancel_left h1
  rw [← List.append_assoc, ← List.append_assoc] at h2
  have h3 := List.append_cancel_right h2
  exact toString_int_inj (String.ext (List.append_cancel_right h3))

/-! Behaviour of the scanning loop of `GetDeploySourceKey`. -/

theorem scanList_noNeed {ck : String} (l : List String) (hmem : ck ∈ l) :
    scanList ck ck l = .noNeed := by
  induction l with
  | nil => cases hmem
  | cons k rest ih =>
    by_cases hk : k = ck
    · subst hk; simp [scanList]
    · rcases List.mem_cons.mp hmem with h1 | h2
      · exact absurd h1.symm hk
      · simp [scanList, hk, ih h2]

theorem scanList_found {cur ck : String} (hne : cur ≠ ck) (l : List String)
    (hmem : ck ∈ l) : scanList cur ck l = .scanned true := by
  induction l with
  | nil => cases hmem
  | cons k rest ih =>
    by_cases hk : k = ck
    · subst hk; simp [scanList, hne]
    · rcases List.mem_cons.mp hmem with h1 | h2
      · exact absurd h1.symm hk
      · simp [scanList, hk, ih h2]

theorem scanList_not_mem {cur ck : String} (l : List String) (hmem : ck ∉ l) :
    scanList cur ck l = .scanned false := by
  induction l with
  | nil => rfl
  | cons k rest ih =>
    have hk : ¬ k = ck := fun he => hmem (by rw [← he]; exact List.mem_cons_self k rest)
    have h2 : ck ∉ rest := fun hm => hmem (List.mem_cons_of_mem k hm)
    simp [scanList, hk, ih h2]

theorem scanList_scanned_true_mem {cur ck : String} (l : List String)
    (h : scanList cur ck l = .scanned true) : ck ∈ l := by
  induction l with
  | nil => simp [scanList] at h
  | cons k rest ih =>
    by_cases hk : k = ck
    · rw [hk]; exact List.mem_cons_self ck rest
    · simp [scanList, hk] at h
      exact List.mem_cons_of_mem k (ih h)

/-! Behaviour of the modelled cache store. -/

theorem KVS.Read_Write_self (s : KVS) (k v : String) : (s.Write k v).Read k = some v := by
  simp [KVS.Read, KVS.Write]

theorem KVS.mem_List_Write_self (s : KVS) (k v : String) : k ∈ (s.Write k v).List := by
  simp [KVS.List, KVS.Write]

theorem KVS.mem_List_Write_of_mem (s : KVS) (k k2 v : String) (h : k ∈ s.List) :
    k ∈ (s.Write k2 v).List := by
  by_cases hk : k = k2
  · rw [hk]; exact KVS.mem_List_Write_self s k2 v
  · obtain ⟨e, he, hek⟩ := List.mem_map.mp h
    refine List.mem_map.mpr ⟨e, List.mem_cons_of_mem _ (List.mem_filter.mpr ⟨he, ?_⟩), hek⟩
    simp [hek, hk]

/-! Shared facts about `GetDeploySourceKey`. -/

theorem GetDeploySourceKey_noNeed (g : GithubRelease)
    (hptr : (g.cache.Read "current.txt").getD "" = g.cacheKey)
    (hmem : g.cacheKey ∈ g.cache.List) :
    g.GetDeploySourceKey = (.error "No need to deploy", g, []) := by
  unfold GithubRelease.GetDeploySourceKey
  rw [hptr, scanList_noNeed _ hmem]

theorem GetDeploySourceKey_ok {g gDone : GithubRelease} {k : String} {evs : List Ev}
    (h : g.GetDeploySourceKey = (.ok k, gDone, evs)) :
    k = g.cacheKey ∧ gDone.cacheKey = g.cacheKey ∧
      gDone.cache.Read "current.txt" = some g.cacheKey ∧
      g.cacheKey ∈ gDone.cache.List := by
  unfold GithubRelease.GetDeploySourceKey at h
  cases hscan : scanList ((g.cache.Read "current.txt").getD "") g.cacheKey g.cache.List with
  | noNeed => rw [hscan] at h; simp at h
  | scanned found =>
    rw [hscan] at h
    cases found with
    | true =>
      simp at h
      obtain ⟨hk, hgd, hev⟩ := h
      rw [← hgd]
      refine ⟨hk.symm, rfl, KVS.Read_Write_self _ _ _, ?_⟩
      exact KVS.mem_List_Write_of_mem _ _ _ _ (scanList_scanned_true_mem _ hscan)
    | false =>
      cases hdl : g.assetDownload with
      | err e => simp [GithubRelease.download, hdl] at h
      | redirectErr u e => simp [GithubRelease.download, hdl] at h
      | direct b =>
        simp [GithubRelease.download, hdl] at h
        obtain ⟨hk, hgd, hev⟩ := h
        rw [← hgd]
        refine ⟨hk.symm, rfl, KVS.Read_Write_self _ _ _, ?_⟩
        exact KVS.mem_List_Write_of_mem _ _ _ _ (KVS.mem_List_Write_self _ _ _)
      | redirectOk u b =>
        simp [GithubRelease.download, hdl] at h
        obtain ⟨hk, hgd, hev⟩ := h
        rw [← hgd]
        refine ⟨hk.symm, rfl, KVS.Read_Write_self _ _ _, ?_⟩
        exact KVS.mem_List_Write_of_mem _ _ _ _ (KVS.mem_List_Write_self _ _ _)

theorem deploy_error_state {env : DeployEnv} {cache : KVS} {fs : FS} {key dst e : String}
    (h : (deploy env cache fs key dst).1 = .error e) :
    (deploy env cache fs key dst).2 = fs := by
  unfold deploy at h ⊢
  cases hp : preserve env fs dst (cache.Read key) with
  | error e2 => rfl
  | ok pair => rw [hp] at h; simp at h

/-! The claims. -/

/-- C1: when the Current Pointer read from the Cache Store equals the
freshly computed Cache Key and that key is present in the store's key
list, `GetDeploySourceKey` fails with the distinguished "No need to
deploy" condition, performs no download (empty event trace), and leaves
the Cache Store unchanged — in particular the Current Pointer is not
rewritten. -/
theorem c1_nothing_to_deploy (g : GithubRelease)
    (hptr : (g.cache.Read "current.txt").getD "" = g.cacheKey)
    (hmem : g.cacheKey ∈ g.cache.List) :
    g.GetDeploySourceKey = (.error "No need to deploy", g, []) :=
  GetDeploySourceKey_noNeed g hptr hmem

/-- C1 witness: the property instantiated at the concrete state `gC1`. -/
theorem c1_nothing_to_deploy_witness :
    (gC1.cache.Read "current.txt").getD "" = gC1.cacheKey ∧
      gC1.cacheKey ∈ gC1.cache.List ∧
      gC1.GetDeploySourceKey = (.error "No need to deploy", gC1, []) :=
  ⟨by decide, by decide, c1_nothing_to_deploy gC1 (by decide) (by decide)⟩

/-- C2: when the fresh Cache Key is present in the Cache Store's key list
but differs from the Current Pointer, `GetDeploySourceKey` performs no
network download (no download event), writes the fresh key as the new
Current Pointer under `current.txt`, and returns the fresh key. -/
theorem c2_promote_cached (g : GithubRelease)
    (hne : (g.cache.Read "current.txt").getD "" ≠ g.cacheKey)
    (hmem : g.cacheKey ∈ g.cache.List) :
    g.GetDeploySourceKey =
      (.ok g.cacheKey, { g with cache := g.cache.Write "current.txt" g.cacheKey },
        [.write "current.txt"]) := by
  unfold GithubRelease.GetDeploySourceKey
  rw [scanList_found hne _ hmem]
  rfl

/-- C2 witness: the property instantiated at the concrete state `gC2`. -/
theorem c2_promote_cached_witness :
    (gC2.cache.Read "current.txt").getD "" ≠ gC2.cacheKey ∧
      gC2.cacheKey ∈ gC2.cache.List ∧
      gC2.GetDeploySourceKey =
        (.ok gC2.cacheKey, { gC2 with cache := gC2.cache.Write "current.txt" gC2.cacheKey },
          [.write "current.txt"]) :=
  ⟨by decide, by decide, c2_promote_cached gC2 (by decide) (by decide)⟩

/-- C3: when the fresh Cache Key is absent from the Cache Store's key
list and the asset endpoint delivers bytes `b` (directly or through its
at-most-one redirect), `GetDeploySourceKey` performs exactly one
download, writes the bytes into the store under the fresh key, then
writes the fresh key as the Current Pointer, and returns the fresh key;
the event trace shows the write under the key strictly before the
pointer update. -/
theorem c3_download_then_pointer (g : GithubRelease) (b : String)
    (hmem : g.cacheKey ∉ g.cache.List)
    (hb : g.assetDownload.bytesOf = some b) :
    g.GetDeploySourceKey =
      (.ok g.cacheKey,
        { g with cache := (g.cache.Write g.cacheKey b).Write "current.txt" g.cacheKey },
        [.download, .write g.cacheKey, .write "current.txt"]) := by
  unfold GithubRelease.GetDeploySourceKey
  rw [scanList_not_mem _ hmem]
  cases hdl : g.assetDownload with
  | err e => rw [hdl] at hb; simp [AssetResp.bytesOf] at hb
  | redirectErr u e => rw [hdl] at hb; simp [AssetResp.bytesOf] at hb
  | direct b2 =>
    rw [hdl] at hb
    simp only [AssetResp.bytesOf, Option.some.injEq] at hb
    rw [← hb]
    simp [GithubRelease.download, hdl]
  | redirectOk u b2 =>
    rw [hdl] at hb
    simp only [AssetResp.bytesOf, Option.some.injEq] at hb
    rw [← hb]
    simp [GithubRelease.download, hdl]

/-- C3 witness: the property instantiated at the concrete state `gC3`. -/
theorem c3_download_then_pointer_witness :
    gC3.cacheKey ∉ gC3.cache.List ∧
      gC3.assetDownload.bytesOf = some "BYTES" ∧
      gC3.GetDeploySourceKey =
        (.ok gC3.cacheKey,
          { gC3 with
              cache := (gC3.cache.Write gC3.cacheKey "BYTES").Write "current.txt" gC3.cacheKey },
          [.download, .write gC3.cacheKey, .write "current.txt"]) :=
  ⟨by decide, rfl, c3_download_then_pointer gC3 "BYTES" (by decide) rfl⟩

/-- C4 counterexample: at the claim's own host, request path and
timestamp, the computed key is NOT the single-dash string the claim
names — the claim as stated is false on the code. -/
theorem c4_counterexample :
    ({ gC1 with
        downloadURL := ⟨"github.com", "/releases/download/v1.2.3/app-linux.tar.gz"⟩,
        updatedAt := 1672531200 }).setCacheKey.cacheKey ≠
      "github.com--1672531200-releases-download-v1.2.3-app-linux.tar.gz" := by decide

/-- C4 (amended): the Cache Key is `host--<unix-timestamp>-<request-path>`
with every path separator rewritten to a dash; since the request path
carries a leading slash, that slash too becomes a dash, so the scenario's
key is `github.com--1672531200--releases-download-v1.2.3-app-linux.tar.gz`
(double dash after the timestamp). -/
theorem c4_amended_key (g : GithubRelease) :
    ({ g with
        downloadURL := ⟨"github.com", "/releases/download/v1.2.3/app-linux.tar.gz"⟩,
        updatedAt := 1672531200 }).setCacheKey.cacheKey =
      "github.com--1672531200--releases-download-v1.2.3-app-linux.tar.gz" := rfl

/-- C5 counterexample: two triples that differ in exactly one component
(the request path) yield the SAME cache key, because a dash in the path
collides with a rewritten slash — the claim's "two runs whose triples
differ in any one component produce different keys" is false. -/
theorem c5_counterexample :
    cacheKeyOf "github.com" 1672531200 "/a/b" = cacheKeyOf "github.com" 1672531200 "/a-b" ∧
      ("/a/b" : String) ≠ "/a-b" :=
  ⟨by decide, by decide⟩

/-- C5 (amended): the Cache Key derivation is a deterministic pure
function of the (host, request path, timestamp) triple — identical
triples always produce identical keys — and triples that differ in the
last-modified timestamp alone always produce different keys.  (Changing
the host or the path alone need not change the key, by the
slash-versus-dash collision of the counterexample.) -/
theorem c5_amended_deterministic_ts_injective :
    (∀ (h1 : String) (t1 : Int) (p1 : String) (h2 : String) (t2 : Int) (p2 : String),
        h1 = h2 → t1 = t2 → p1 = p2 → cacheKeyOf h1 t1 p1 = cacheKeyOf h2 t2 p2) ∧
    (∀ (h : String) (p : String) (t1 t2 : Int),
        t1 ≠ t2 → cacheKeyOf h t1 p ≠ cacheKeyOf h t2 p) := by
  constructor
  · intro h1 t1 p1 h2 t2 p2 hh ht hp
    rw [hh, ht, hp]
  · intro h p t1 t2 hne he
    exact hne (cacheKeyOf_ts_inj h p he)

/-- C5 witness: the amended property instantiated at concrete triples. -/
theorem c5_amended_witness :
    cacheKeyOf "github.com" 1 "/a" = cacheKeyOf "github.com" 1 "/a" ∧
      cacheKeyOf "github.com" 1 "/a" ≠ cacheKeyOf "github.com" 2 "/a" :=
  ⟨c5_amended_deterministic_ts_injective.1 "github.com" 1 "/a" "github.com" 1 "/a" rfl rfl rfl,
   c5_amended_deterministic_ts_injective.2 "github.com" "/a" 1 2 (by decide)⟩

/-- C6 (code bug): in pre-release mode, with the first release page
holding the non-draft release `relC6`, `latest` returns the
nil-initialized release variable (`return r, nil` where only `v` holds
the found release), so `Fetch` dereferences nil and panics instead of
populating the ReleaseArtifact fields from that release. -/
theorem c6_prerelease_nil_release :
    gC6.latest = .ok none ∧ gC6.Fetch = .error nilPointerPanic :=
  ⟨rfl, rfl⟩

/-- C7 counterexample: for the concrete resolver `gC7`, whose latest
release has no asset named like the configured artifact, `Fetch` returns
success — not an `ArtifactNotFoundError` (no such failure exists in the
code). -/
theorem c7_counterexample : gC7.Fetch.isOk = true := rfl

/-- C7 (amended): when no asset of the resolved release matches the
configured artifact filename, `Fetch` succeeds anyway, leaving the
download URL (and hence the fields derived from the matched asset) at
their previous values. -/
theorem c7_amended_no_match_succeeds (g : GithubRelease) (release : Release)
    (hpre : g.prerelease = false)
    (hlatest : g.latestRelease = .ok release)
    (hnone : release.assets.find? (fun v => v.name == g.artifact) = none) :
    ∃ g2, g.Fetch = .ok g2 ∧ g2.downloadURL = g.downloadURL := by
  unfold GithubRelease.Fetch GithubRelease.latest
  rw [hpre, hlatest]
  simp only [Bool.false_eq_true, if_false, Except.map, hnone]
  exact ⟨_, rfl, rfl⟩

/-- C7 witness: the amended property instantiated at `gC7`. -/
theorem c7_amended_witness :
    gC7.prerelease = false ∧
      gC7.latestRelease = .ok relC7 ∧
      relC7.assets.find? (fun v => v.name == gC7.artifact) = none ∧
      (∃ g2, gC7.Fetch = .ok g2 ∧ g2.downloadURL = gC7.downloadURL) :=
  ⟨rfl, rfl, rfl, c7_amended_no_match_succeeds gC7 relC7 rfl rfl rfl⟩

/-- C8: the Active-Version Link is replaced only after the new slot has
been fully populated: whenever `deploy` returns an error (slot creation
failed, cache entry missing, or extraction failed) the link equals its
pre-call value, and only on success is the link repointed at the new
slot. -/
theorem c8_link_only_after_populate (env : DeployEnv) (cache : KVS) (fs : FS)
    (key dst : String) :
    (∀ e, (deploy env cache fs key dst).1 = .error e →
        (deploy env cache fs key dst).2.link = fs.link) ∧
    ((deploy env cache fs key dst).1 = .ok () →
        (deploy env cache fs key dst).2.link = some dst) := by
  constructor
  · intro e he
    rw [deploy_error_state he]
  · intro hok
    unfold deploy preserve at hok ⊢
    cases hmk : env.mkdirOk with
    | false => simp [hmk] at hok
    | true =>
      cases harc : cache.Read key with
      | none => simp [hmk, harc] at hok
      | some bytes =>
        cases hex : env.extract bytes with
        | error e2 => simp [hmk, harc, hex] at hok
        | ok contents => simp [hmk, harc, hex]

/-- C8 witness: a failing deploy leaves the link at the prior slot, and a
succeeding deploy repoints it at the new slot. -/
theorem c8_link_only_after_populate_witness :
    ((deploy envFail (⟨[("k1", "BYTES")]⟩ : KVS) fsPrior "k1" "slot1").1 =
        .error "SlotCreationError" ∧
      (deploy envFail (⟨[("k1", "BYTES")]⟩ : KVS) fsPrior "k1" "slot1").2.link = fsPrior.link) ∧
    ((deploy envOk (⟨[("k1", "BYTES")]⟩ : KVS) fsPrior "k1" "slot1").1 = .ok () ∧
      (deploy envOk (⟨[("k1", "BYTES")]⟩ : KVS) fsPrior "k1" "slot1").2.link = some "slot1") :=
  ⟨⟨rfl,
    (c8_link_only_after_populate envFail ⟨[("k1", "BYTES")]⟩ fsPrior "k1" "slot1").1
      "SlotCreationError" rfl⟩,
   ⟨rfl,
    (c8_link_only_after_populate envOk ⟨[("k1", "BYTES")]⟩ fsPrior "k1" "slot1").2 rfl⟩⟩

/-- C9: in managed-server mode, the first successful deploy cycle finds
the server not running, transitions it to running and invokes the
starter; every one of the `n` subsequent successful cycles finds it
running, sends SIGHUP and does not invoke the starter again; and one
successful cycle always leaves the server running, so the running state
is never left. -/
theorem c9_lifecycle (n : Nat) :
    runCycles (n + 1) false = (true, .starterRun :: List.replicate n .sighup) ∧
    (∀ running, (serverStep running).1 = true) := by
  have hrun : ∀ m, runCycles m true = (true, List.replicate m ServerCmd.sighup) := by
    intro m
    induction m with
    | zero => rfl
    | succ m2 ih => simp [runCycles, serverStep, restartServer, ih, List.replicate]
  refine ⟨?_, ?_⟩
  · simp [runCycles, serverStep, startServer, hrun n]
  · intro running
    cases running with
    | false => rfl
    | true => rfl

/-- C10: `GetDeploySourceKey` commits the fresh key as the Current
Pointer before any extraction or relinking runs; hence when it returns
key `k` and the subsequent `deploy` of `k` fails, the pointer names `k`
while the link still names the prior slot, and any following cycle whose
resolver computes the same key `k` over the unchanged store takes the
"No need to deploy" branch — the failed deploy of `k` is never retried. -/
theorem c10_failed_deploy_not_retried (g gDone g2 : GithubRelease) (k : String)
    (evs : List Ev) (env : DeployEnv) (fs : FS) (dst e : String)
    (h1 : g.GetDeploySourceKey = (.ok k, gDone, evs))
    (h2 : (deploy env gDone.cache fs k dst).1 = .error e)
    (hck : g2.cacheKey = k)
    (hcache : g2.cache = gDone.cache) :
    gDone.cache.Read "current.txt" = some k ∧
      (deploy env gDone.cache fs k dst).2.link = fs.link ∧
      g2.GetDeploySourceKey = (.error "No need to deploy", g2, []) := by
  obtain ⟨hk, hdk, hread, hmem⟩ := GetDeploySourceKey_ok h1
  subst hk
  refine ⟨hread, ?_, ?_⟩
  · rw [deploy_error_state h2]
  · apply GetDeploySourceKey_noNeed
    · rw [hcache, hread, hck]
      rfl
    · rw [hcache, hck]
      exact hmem

/-- C10 witness: a concrete first cycle downloads and commits key `k1`,
the deploy of `k1` fails at slot creation, and the follow-up cycle over
the resulting state reports "No need to deploy". -/
theorem c10_failed_deploy_not_retried_witness :
    gC3.GetDeploySourceKey =
        (.ok "k1", gC10done, [.download, .write "k1", .write "current.txt"]) ∧
      (deploy envFail gC10done.cache fsPrior "k1" "slot1").1 = .error "SlotCreationError" ∧
      (gC10done.cache.Read "current.txt" = some "k1" ∧
        (deploy envFail gC10done.cache fsPrior "k1" "slot1").2.link = fsPrior.link ∧
        gC10done.GetDeploySourceKey = (.error "No need to deploy", gC10done, [])) :=
  ⟨rfl, rfl,
   c10_failed_deploy_not_retried gC3 gC10done gC10done "k1"
     [.download, .write "k1", .write "current.txt"] envFail fsPrior "slot1"
     "SlotCreationError" rfl rfl rfl rfl⟩

end Dewy
